import Mathlib

/-!
Verification of the authentication core of the services API (Go sources in
`pkg/jwt/jwt.go`, `pkg/auth` middleware, `internal/service` auth service,
`internal/domain` user model, and the `response` helpers), shallowly embedded
in Lean.

Modelling conventions:
* Wall-clock instants and durations are `Int` (unix seconds), matching the
  second-granularity `NumericDate` claims of the token format.
* A serialized token (the Go `string` holding `header.payload.signature`) is
  embedded at parse granularity: it is either malformed, or a well-formed
  three-part structure carrying its claims, its declared signing algorithm and
  the key that produced its signature.  An HMAC signature verifies exactly when
  the verifying key equals the signing key (ideal-MAC abstraction of
  HMAC-SHA256; forging collisions are outside the model).
* Go byte strings are embedded as `List Nat` where each entry is one byte, or,
  where only equality matters, as Lean `String` (UTF-8 encoding is injective,
  so string equality and byte-sequence equality coincide).
* Fallible Go functions returning `(T, error)` become `Except`-valued
  functions; the persistent user store is passed and returned explicitly.
-/

/-! ## Token codec: `pkg/jwt/jwt.go` -/

/-- Token type constant `TokenTypeAccess = "access"`. -/
def TokenTypeAccess : String := "access"

/-- Token type constant `TokenTypeRefresh = "refresh"`. -/
def TokenTypeRefresh : String := "refresh"

/-- The error values surfaced by the jwt package (`ErrInvalidToken`,
`ErrExpiredToken`, `ErrInvalidTokenType`, `ErrInvalidSigningMethod`). -/
inductive JwtError where
  | ErrInvalidToken
  | ErrExpiredToken
  | ErrInvalidTokenType
  | ErrInvalidSigningMethod
  deriving DecidableEq, Repr

/-- The signing algorithm declared in a token header.  `hs256`, `hs384` and
`hs512` are the HMAC family (`*jwt.SigningMethodHMAC`); the others stand for
the non-HMAC methods an attacker could declare (RSA, ECDSA, `none`). -/
inductive SigningMethod where
  | hs256
  | hs384
  | hs512
  | rs256
  | es256
  | algNone
  deriving DecidableEq, Repr

/-- Whether the method is an instance of `*jwt.SigningMethodHMAC` (the type
assertion in the keyfunc of `Manager.ValidateToken`). -/
def SigningMethod.isHMAC : SigningMethod → Bool
  | .hs256 => true
  | .hs384 => true
  | .hs512 => true
  | _ => false

/-- `jwt.RegisteredClaims` as used by this code: the three timestamps (each
optional on the wire — an attacker-supplied token may omit them), the issuer
and the subject. -/
structure RegisteredClaims where
  expiresAt : Option Int
  issuedAt : Option Int
  notBefore : Option Int
  issuer : String
  subject : String
  deriving DecidableEq, Repr

/-- `jwt.Claims` of `pkg/jwt/jwt.go`: application fields plus the registered
claims. -/
structure Claims where
  userID : String
  email : String
  role : String
  tokenType : String
  registered : RegisteredClaims
  deriving DecidableEq, Repr

/-- A serialized token string, at parse granularity: either not a well-formed
`header.payload.signature` structure, or well-formed with claims `c`, declared
algorithm `alg`, and a signature produced under key `sigKey`. -/
inductive TokenString where
  | malformed
  | signed (c : Claims) (alg : SigningMethod) (sigKey : String)
  deriving DecidableEq, Repr

/-- `jwt.Manager`: signing key, the two TTLs (seconds) and the issuer. -/
structure Manager where
  secretKey : String
  accessTokenExpiry : Int
  refreshTokenExpiry : Int
  issuer : String
  deriving DecidableEq, Repr

/-- The classified failure of `jwt.ParseWithClaims` (golang-jwt v5): malformed
input, keyfunc failure (non-HMAC method), signature mismatch, or invalid
claims — the latter remembering whether the expiry check failed and whether
the not-before check failed, since `ValidateToken` asks
`errors.Is(err, jwt.ErrTokenExpired)`. -/
inductive ParseFailure where
  | malformedErr
  | unverifiableErr
  | signatureInvalidErr
  | invalidClaimsErr (expired notYetValid : Bool)
  deriving DecidableEq, Repr

/-- `errors.Is(err, jwt.ErrTokenExpired)` on a classified parse failure. -/
def ParseFailure.isExpired : ParseFailure → Bool
  | .invalidClaimsErr expired _ => expired
  | _ => false

/-- `jwt.ParseWithClaims` with the keyfunc of `Manager.ValidateToken`,
following the order of golang-jwt v5: parse the structure, run the keyfunc
(which rejects non-HMAC methods with `ErrInvalidSigningMethod`), verify the
signature, then validate time-based claims (`exp` strictly must exceed `now`;
`nbf`, when present, must not exceed `now`; both optional). -/
def Manager.parseWithClaims (m : Manager) (now : Int) :
    TokenString → Except ParseFailure Claims
  | .malformed => .error .malformedErr
  | .signed c alg sigKey =>
    if alg.isHMAC = false then .error .unverifiableErr
    else if sigKey ≠ m.secretKey then .error .signatureInvalidErr
    else
      let expired := match c.registered.expiresAt with
        | some e => decide (e ≤ now)
        | none => false
      let notYetValid := match c.registered.notBefore with
        | some n => decide (now < n)
        | none => false
      if expired || notYetValid then .error (.invalidClaimsErr expired notYetValid)
      else .ok c

/-- `Manager.ValidateToken`: parse and verify, mapping an expiry failure to
`ErrExpiredToken` and any other failure to `ErrInvalidToken`. -/
def Manager.ValidateToken (m : Manager) (now : Int) (tokenString : TokenString) :
    Except JwtError Claims :=
  match m.parseWithClaims now tokenString with
  | .error e => if e.isExpired then .error .ErrExpiredToken else .error .ErrInvalidToken
  | .ok claims => .ok claims

/-- `Manager.generateToken`: build the claims with `exp = now + expiry`,
`iat = nbf = now`, subject = userID, and sign with HS256 under the manager's
key. -/
def Manager.generateToken (m : Manager) (now : Int)
    (userID email role tokenType : String) (expiry : Int) : TokenString :=
  .signed
    { userID := userID
      email := email
      role := role
      tokenType := tokenType
      registered :=
        { expiresAt := some (now + expiry)
          issuedAt := some now
          notBefore := some now
          issuer := m.issuer
          subject := userID } }
    .hs256 m.secretKey

/-- `Manager.GenerateAccessToken`. -/
def Manager.GenerateAccessToken (m : Manager) (now : Int)
    (userID email role : String) : TokenString :=
  m.generateToken now userID email role TokenTypeAccess m.accessTokenExpiry

/-- `Manager.GenerateRefreshToken`. -/
def Manager.GenerateRefreshToken (m : Manager) (now : Int)
    (userID email role : String) : TokenString :=
  m.generateToken now userID email role TokenTypeRefresh m.refreshTokenExpiry

/-- `Manager.ValidateAccessToken`: `ValidateToken`, then require
`TokenType == "access"`. -/
def Manager.ValidateAccessToken (m : Manager) (now : Int)
    (tokenString : TokenString) : Except JwtError Claims :=
  match m.ValidateToken now tokenString with
  | .error e => .error e
  | .ok claims =>
    if claims.tokenType ≠ TokenTypeAccess then .error .ErrInvalidTokenType
    else .ok claims

/-- `Manager.ValidateRefreshToken`: `ValidateToken`, then require
`TokenType == "refresh"`. -/
def Manager.ValidateRefreshToken (m : Manager) (now : Int)
    (tokenString : TokenString) : Except JwtError Claims :=
  match m.ValidateToken now tokenString with
  | .error e => .error e
  | .ok claims =>
    if claims.tokenType ≠ TokenTypeRefresh then .error .ErrInvalidTokenType
    else .ok claims

/-- `Manager.GetAccessTokenExpiry`: the access-token TTL in seconds. -/
def Manager.GetAccessTokenExpiry (m : Manager) : Int :=
  m.accessTokenExpiry

/-! ## Constant-time comparison: `crypto/subtle`, modelled at byte level -/

/-- `subtle.ConstantTimeByteEq(x, 0)` specialised to the accumulator byte:
Go computes `int((uint32(x^y) - 1) >> 31)`, here written with explicit
wrap-around arithmetic modulo `2^32`. -/
def constantTimeByteEq (x y : Nat) : Nat :=
  (((x ^^^ y) + (2 ^ 32 - 1)) % 2 ^ 32) / 2 ^ 31

/-- The loop body of `subtle.ConstantTimeCompare`:
`for i := range x { v |= x[i] ^ y[i] }`, instrumented with an iteration
counter.  The first component is the accumulator `v`, the second the number of
loop iterations performed (the cost model: one unit per byte visited, with no
early exit). -/
def ctLoopInstr : List Nat → List Nat → Nat → Nat × Nat
  | [], _, v => (v, 0)
  | _ :: _, [], v => (v, 0)
  | x :: xs, y :: ys, v =>
    let r := ctLoopInstr xs ys (v ||| (x ^^^ y))
    (r.1, r.2 + 1)

/-- `subtle.ConstantTimeCompare(x, y)`: `0` when the lengths differ, else
`ConstantTimeByteEq(v, 0)` of the accumulated or of xors. -/
def constantTimeCompare (x y : List Nat) : Nat :=
  if x.length ≠ y.length then 0
  else constantTimeByteEq (ctLoopInstr x y 0).1 0

/-- The byte sequence of a Go string, one entry per character (UTF-8 encoding
is injective, so equality of these sequences is equality of the strings). -/
def strBytes (s : String) : List Nat := s.data.map Char.toNat

/-- `secureCompare` of `pkg/auth`:
`subtle.ConstantTimeCompare([]byte(a), []byte(b)) == 1`. -/
def secureCompare (a b : String) : Bool :=
  constantTimeCompare (strBytes a) (strBytes b) = 1

/-! ## Auth middleware: `pkg/auth` -/

/-- `config.Config`, restricted to the field the middleware reads. -/
structure Config where
  apiKeys : List String
  deriving DecidableEq, Repr

/-- `Config.HasAPIKeys`: `len(c.APIKeys) > 0`. -/
def Config.HasAPIKeys (c : Config) : Bool :=
  decide (c.apiKeys.length > 0)

/-- `auth.AuthType` (`"api_key"` / `"jwt"`). -/
inductive AuthType where
  | apiKey
  | jwt
  deriving DecidableEq, Repr

/-- The request-scoped context values the middleware may attach
(`api_key_id`, `user_id`, `user_email`, `user_role`, `auth_type`); `none`
models an absent key. -/
structure ReqContext where
  apiKeyID : Option Int
  userID : Option String
  userEmail : Option String
  userRole : Option String
  authType : Option AuthType
  deriving DecidableEq, Repr

/-- The `Authorization` header of a request, at the granularity the gate
inspects it: absent, present with the `"Bearer "` prefix followed by a token,
or present without that prefix. -/
inductive AuthHeaderVal where
  | noHeader
  | bearer (t : TokenString)
  | other (s : String)
  deriving DecidableEq, Repr

/-- An incoming HTTP request, restricted to what the gate reads: the URL
path, the `Authorization` header and the `X-API-Key` header (`""` when
absent — Go's `Header.Get` returns the empty string either way, and the gate
only compares against `""`). -/
structure Request where
  path : String
  authHeader : AuthHeaderVal
  apiKey : String
  deriving DecidableEq, Repr

/-- An HTTP response written by the middleware. -/
structure HTTPResponse where
  status : Nat
  contentType : String
  body : String
  deriving DecidableEq, Repr

/-- The outcome of the middleware on one request: pass the request on to the
inner handler with the given context, or respond immediately. -/
inductive GateResult where
  | next (ctx : ReqContext)
  | responded (resp : HTTPResponse)
  deriving DecidableEq, Repr

/-- `auth.Middleware`: the configuration and the (possibly nil) JWT
manager. -/
structure Middleware where
  config : Config
  jwtManager : Option Manager
  deriving DecidableEq, Repr

/-- `escapeJSON`, first pass: `strings.ReplaceAll(s, old, new)` for a
single-character pattern, which substitutes every occurrence of that
character. -/
def replaceChar (old : Char) (new : List Char) : List Char → List Char
  | [] => []
  | c :: rest => (if c = old then new else [c]) ++ replaceChar old new rest

/-- `escapeJSON`: double every backslash, then escape every double quote. -/
def escapeJSON (s : String) : String :=
  ⟨replaceChar '"' ['\\', '"'] (replaceChar '\\' ['\\', '\\'] s.data)⟩

/-- `writeUnauthorizedResponse`: status 401, JSON content type, and the body
`{"error":"unauthorized","message":"<escaped message>"}`. -/
def writeUnauthorizedResponse (message : String) : HTTPResponse :=
  { status := 401
    contentType := "application/json"
    body := "\x7b\"error\":\"unauthorized\",\"message\":\"" ++ escapeJSON message ++ "\"\x7d" }

/-- The loop of `Middleware.findValidKeyIndex`, with the running index made
explicit: return the index of the first configured key that compares equal,
else `-1`. -/
def findKeyLoop (provided : String) : List String → Nat → Int
  | [], _ => -1
  | k :: ks, i => if secureCompare provided k then Int.ofNat i else findKeyLoop provided ks (i + 1)

/-- `Middleware.findValidKeyIndex`. -/
def Middleware.findValidKeyIndex (m : Middleware) (providedKey : String) : Int :=
  findKeyLoop providedKey m.config.apiKeys 0

/-- `Middleware.authenticateAPIKey`: fail closed when no keys are configured,
else attach the matching index and `AuthType=APIKey`. -/
def Middleware.authenticateAPIKey (m : Middleware) (ctx : ReqContext)
    (apiKey : String) : Option ReqContext :=
  if m.config.HasAPIKeys = false then none
  else
    let keyIndex := m.findValidKeyIndex apiKey
    if keyIndex = -1 then none
    else some { ctx with apiKeyID := some keyIndex, authType := some .apiKey }

/-- `Middleware.authenticateJWT`: nil manager fails; otherwise validate as an
access token and attach user id, email, role and `AuthType=JWT`. -/
def Middleware.authenticateJWT (m : Middleware) (now : Int) (ctx : ReqContext)
    (token : TokenString) : Option ReqContext :=
  match m.jwtManager with
  | none => none
  | some mgr =>
    match mgr.ValidateAccessToken now token with
    | .error _ => none
    | .ok claims =>
      some { ctx with
              userID := some claims.userID
              userEmail := some claims.email
              userRole := some claims.role
              authType := some .jwt }

/-- `Middleware.Authenticate`: health bypass, then the Bearer path (no
fallback once the prefix was seen), then the API-key path, else a generic
401. -/
def Middleware.Authenticate (m : Middleware) (now : Int) (ctx : ReqContext)
    (r : Request) : GateResult :=
  if r.path = "/health" then .next ctx
  else
    match r.authHeader with
    | .bearer token =>
      match m.authenticateJWT now ctx token with
      | some ctx2 => .next ctx2
      | none => .responded (writeUnauthorizedResponse "invalid or expired token")
    | _ =>
      if r.apiKey ≠ "" then
        match m.authenticateAPIKey ctx r.apiKey with
        | some ctx2 => .next ctx2
        | none => .responded (writeUnauthorizedResponse "invalid credentials")
      else .responded (writeUnauthorizedResponse "authentication required")

/-! ## Domain model: `internal/domain` -/

/-- `domain.RoleUser`. -/
def RoleUser : String := "user"

/-- The `error` values of `internal/domain` that the auth flows can produce,
plus `bcryptPasswordTooLong` for the error `bcrypt.GenerateFromPassword`
returns on inputs longer than 72 bytes. -/
inductive DomainError where
  | ErrEmailRequired
  | ErrEmailInvalid
  | ErrEmailTooLong
  | ErrPasswordRequired
  | ErrPasswordTooShort
  | ErrPasswordTooLong
  | ErrInvalidCredentials
  | ErrEmailAlreadyExists
  | ErrUserNotFound
  | ErrFirstNameRequired
  | ErrFirstNameTooLong
  | ErrLastNameTooLong
  | bcryptPasswordTooLong
  deriving DecidableEq, Repr

/-- `err.Error()`: the message text of each error value (from
`internal/domain`). -/
def DomainError.errText : DomainError → String
  | .ErrEmailRequired => "email is required"
  | .ErrEmailInvalid => "email format is invalid"
  | .ErrEmailTooLong => "email must be at most 255 characters"
  | .ErrPasswordRequired => "password is required"
  | .ErrPasswordTooShort => "password must be at least 8 characters"
  | .ErrPasswordTooLong => "password must be at most 72 characters"
  | .ErrInvalidCredentials => "invalid credentials"
  | .ErrEmailAlreadyExists => "email already exists"
  | .ErrUserNotFound => "user not found"
  | .ErrFirstNameRequired => "first name is required"
  | .ErrFirstNameTooLong => "first name must be at most 100 characters"
  | .ErrLastNameTooLong => "last name must be at most 100 characters"
  | .bcryptPasswordTooLong => "bcrypt: password length exceeds 72 bytes"

/-- `domain.User`.  Mongo ObjectIDs are embedded as `Nat`, with `ID.Hex()`
rendered by `toString` (an injective rendering, which is all the code relies
on). -/
structure User where
  id : Nat
  email : String
  passwordHash : String
  firstName : String
  lastName : String
  role : String
  active : Bool
  createdAt : Int
  updatedAt : Int
  deriving DecidableEq, Repr

/-- `domain.UserResponse`: the API representation of a user. -/
structure UserResponse where
  id : String
  email : String
  firstName : String
  lastName : String
  role : String
  active : Bool
  createdAt : Int
  updatedAt : Int
  deriving DecidableEq, Repr

/-- `User.ToResponse`. -/
def User.ToResponse (u : User) : UserResponse :=
  { id := toString u.id
    email := u.email
    firstName := u.firstName
    lastName := u.lastName
    role := u.role
    active := u.active
    createdAt := u.createdAt
    updatedAt := u.updatedAt }

/-- Go's `len` on a string: its UTF-8 byte length. -/
def byteLen (s : String) : Nat :=
  s.data.foldl (fun n c => n + c.utf8Size) 0

/-- `strings.ToLower` as applied to email addresses (character-wise
lowering). -/
def goToLower (s : String) : String :=
  ⟨s.data.map Char.toLower⟩

/-- The white-space class trimmed by `strings.TrimSpace`: `unicode.IsSpace`,
i.e. the Unicode White_Space property — U+0009..U+000D, the space, NEL
U+0085, NBSP U+00A0, U+1680, U+2000..U+200A, the line and paragraph
separators U+2028/U+2029, U+202F, U+205F and U+3000. -/
def isSpaceChar (c : Char) : Bool :=
  (9 ≤ c.toNat && c.toNat ≤ 13) || c.toNat = 32 || c.toNat = 0x85 ||
    c.toNat = 0xA0 || c.toNat = 0x1680 ||
    (0x2000 ≤ c.toNat && c.toNat ≤ 0x200A) || c.toNat = 0x2028 ||
    c.toNat = 0x2029 || c.toNat = 0x202F || c.toNat = 0x205F ||
    c.toNat = 0x3000

/-- `strings.TrimSpace`: drop leading and trailing `unicode.IsSpace`
characters. -/
def goTrimSpace (s : String) : String :=
  ⟨((s.data.dropWhile isSpaceChar).reverse.dropWhile isSpaceChar).reverse⟩

/-- The bcrypt primitive, abstracted: `generate` is the salted cost-factor
hash (its output is opaque to this core) and `verify hash password` is
`bcrypt.CompareHashAndPassword(hash, password) == nil`. -/
structure BcryptModel where
  generate : String → String
  verify : String → String → Bool

/-- `bcrypt.GenerateFromPassword`, which fails on passwords longer than 72
bytes and otherwise produces the hash. -/
def bcryptGenerateFromPassword (bc : BcryptModel) (password : String) :
    Except DomainError String :=
  if byteLen password > 72 then .error .bcryptPasswordTooLong
  else .ok (bc.generate password)

/-- `User.SetPassword`: hash and store, never the plaintext. -/
def User.SetPassword (bc : BcryptModel) (u : User) (password : String) :
    Except DomainError User :=
  match bcryptGenerateFromPassword bc password with
  | .error e => .error e
  | .ok hash => .ok { u with passwordHash := hash }

/-- `User.CheckPassword`. -/
def User.CheckPassword (bc : BcryptModel) (u : User) (password : String) : Bool :=
  bc.verify u.passwordHash password

/-- `domain.RegisterRequest`. -/
structure RegisterRequest where
  email : String
  password : String
  firstName : String
  lastName : String
  deriving DecidableEq, Repr

/-- `domain.LoginRequest`. -/
structure LoginRequest where
  email : String
  password : String
  deriving DecidableEq, Repr

/-- `domain.AuthResponse`: the uniform token bundle. -/
structure AuthResponse where
  accessToken : TokenString
  refreshToken : TokenString
  tokenType : String
  expiresIn : Int
  user : UserResponse
  deriving DecidableEq, Repr

/-! ## User store: the collaborator contract of `domain.UserRepository`
(realised by `MongoUserRepository` / `MockUserRepository`): an in-memory
record list with a fresh-id counter. -/

/-- The user store state. -/
structure UserStore where
  users : List User
  nextID : Nat
  deriving DecidableEq, Repr

/-- `UserRepository.GetByEmail`: the stored user with that email, or
`ErrUserNotFound`. -/
def UserStore.getByEmail (st : UserStore) (email : String) :
    Except DomainError User :=
  match st.users.find? (fun u => u.email = email) with
  | some u => .ok u
  | none => .error .ErrUserNotFound

/-- `UserRepository.GetByID` (ids compared through their rendering, as the
code does via `ObjectID.Hex`). -/
def UserStore.getByID (st : UserStore) (id : String) :
    Except DomainError User :=
  match st.users.find? (fun u => toString u.id = id) with
  | some u => .ok u
  | none => .error .ErrUserNotFound

/-- `UserRepository.ExistsByEmail`. -/
def UserStore.existsByEmail (st : UserStore) (email : String) : Bool :=
  st.users.any (fun u => u.email = email)

/-- `UserRepository.Create`: reject a duplicate email, otherwise assign a
fresh id and the creation timestamps and persist the record.  Returns the
stored record and the new store. -/
def UserStore.create (st : UserStore) (now : Int) (u : User) :
    Except DomainError (User × UserStore) :=
  if st.users.any (fun v => v.email = u.email) then .error .ErrEmailAlreadyExists
  else
    let stored := { u with id := st.nextID, createdAt := now, updatedAt := now }
    .ok (stored, { users := st.users ++ [stored], nextID := st.nextID + 1 })

/-! ## Auth service: `internal/service` -/

/-- Character class `[a-zA-Z0-9._%+-]` of the local part of `emailRegex`. -/
def isEmailLocalChar (c : Char) : Bool :=
  c.isAlpha || c.isDigit || c = '.' || c = '_' || c = '%' || c = '+' || c = '-'

/-- Character class `[a-zA-Z0-9.-]` of the domain part of `emailRegex`. -/
def isEmailDomainChar (c : Char) : Bool :=
  c.isAlpha || c.isDigit || c = '.' || c = '-'

/-- Whether a character sequence matches `[a-zA-Z0-9.-]+\.[a-zA-Z]\x7b2,\x7d`.
Because the trailing group is letters only, any witnessing decomposition must
split at the last dot, so it suffices to check that split: a non-empty
all-letter tail of length at least two after the final dot, and a non-empty
domain-class part before it. -/
def emailDomainMatch (d : List Char) : Bool :=
  let rev := d.reverse
  let tldRev := rev.takeWhile (fun c => c ≠ '.')
  match rev.drop tldRev.length with
  | '.' :: beforeRev =>
    decide (beforeRev ≠ []) && beforeRev.all isEmailDomainChar &&
      decide (tldRev.length ≥ 2) && tldRev.all Char.isAlpha
  | _ => false

/-- `emailRegex.MatchString` for
`^[a-zA-Z0-9._%+-]+@[a-zA-Z0-9.-]+\.[a-zA-Z]\x7b2,\x7d$`: neither class
contains `@`, so a match forces exactly one `@`, a non-empty local part in its
class before it, and a matching domain after it. -/
def emailRegexMatch (s : String) : Bool :=
  match s.data.splitOn '@' with
  | [localPart, domainPart] =>
    decide (localPart ≠ []) && localPart.all isEmailLocalChar &&
      emailDomainMatch domainPart
  | _ => false

/-- `service.AuthService` (the user store and the bcrypt primitive are passed
explicitly to its operations). -/
structure AuthService where
  jwtManager : Manager
  deriving DecidableEq, Repr

/-- `AuthService.generateAuthResponse`: issue a fresh access+refresh pair for
the user and build the uniform bundle (token generation cannot fail in the
model, HMAC signing being total). -/
def AuthService.generateAuthResponse (s : AuthService) (now : Int) (user : User) :
    AuthResponse :=
  let userID := toString user.id
  { accessToken := s.jwtManager.GenerateAccessToken now userID user.email user.role
    refreshToken := s.jwtManager.GenerateRefreshToken now userID user.email user.role
    tokenType := "Bearer"
    expiresIn := s.jwtManager.GetAccessTokenExpiry
    user := user.ToResponse }

/-- `AuthService.validateRegisterRequest`, with the checks in source order
(Go `len` is the byte length; `strings.TrimSpace` is `goTrimSpace`). -/
def AuthService.validateRegisterRequest (_s : AuthService) (req : RegisterRequest) :
    Except DomainError Unit :=
  if req.email = "" then .error .ErrEmailRequired
  else if byteLen req.email > 255 then .error .ErrEmailTooLong
  else if emailRegexMatch req.email = false then .error .ErrEmailInvalid
  else if req.password = "" then .error .ErrPasswordRequired
  else if byteLen req.password < 8 then .error .ErrPasswordTooShort
  else if byteLen req.password > 72 then .error .ErrPasswordTooLong
  else if goTrimSpace req.firstName = "" then .error .ErrFirstNameRequired
  else if byteLen req.firstName > 100 then .error .ErrFirstNameTooLong
  else if byteLen req.lastName > 100 then .error .ErrLastNameTooLong
  else .ok ()

/-- `AuthService.Register`: validate, check email uniqueness, build the user
(lower-cased email, trimmed names, default role, active), hash the password,
persist, and issue tokens.  The store is returned unchanged on every error
path. -/
def AuthService.Register (s : AuthService) (bc : BcryptModel) (st : UserStore)
    (now : Int) (req : RegisterRequest) :
    Except DomainError AuthResponse × UserStore :=
  match s.validateRegisterRequest req with
  | .error e => (.error e, st)
  | .ok _ =>
    if st.existsByEmail (goToLower req.email) then (.error .ErrEmailAlreadyExists, st)
    else
      let user : User :=
        { id := 0
          email := goToLower req.email
          passwordHash := ""
          firstName := goTrimSpace req.firstName
          lastName := goTrimSpace req.lastName
          role := RoleUser
          active := true
          createdAt := 0
          updatedAt := 0 }
      match User.SetPassword bc user req.password with
      | .error e => (.error e, st)
      | .ok hashed =>
        match st.create now hashed with
        | .error e => (.error e, st)
        | .ok (stored, st2) => (.ok (s.generateAuthResponse now stored), st2)

/-- `AuthService.Login`: empty-field checks, then lookup by lower-cased email
(`ErrUserNotFound` collapses to `ErrInvalidCredentials`), the active check,
and the password check. -/
def AuthService.Login (s : AuthService) (bc : BcryptModel) (st : UserStore)
    (now : Int) (req : LoginRequest) : Except DomainError AuthResponse :=
  if req.email = "" then .error .ErrEmailRequired
  else if req.password = "" then .error .ErrPasswordRequired
  else
    match st.getByEmail (goToLower req.email) with
    | .error e =>
      if e = .ErrUserNotFound then .error .ErrInvalidCredentials else .error e
    | .ok user =>
      if user.active = false then .error .ErrInvalidCredentials
      else if User.CheckPassword bc user req.password = false then
        .error .ErrInvalidCredentials
      else .ok (s.generateAuthResponse now user)

/-- `AuthService.RefreshToken`: validate the refresh token, re-fetch the user
by the claimed id, require the user active, then issue a fresh pair; every
failure collapses to `ErrInvalidCredentials`. -/
def AuthService.RefreshToken (s : AuthService) (st : UserStore) (now : Int)
    (refreshToken : TokenString) : Except DomainError AuthResponse :=
  match s.jwtManager.ValidateRefreshToken now refreshToken with
  | .error _ => .error .ErrInvalidCredentials
  | .ok claims =>
    match st.getByID claims.userID with
    | .error _ => .error .ErrInvalidCredentials
    | .ok user =>
      if user.active = false then .error .ErrInvalidCredentials
      else .ok (s.generateAuthResponse now user)

/-! ## Response helpers (`response` package) and the auth handler error
mapping (`internal/handler`) -/

/-- A handler-level error response: status, the `error` code field and the
`message` field of the JSON body written by `response.Error`. -/
structure ErrResp where
  status : Nat
  errorCode : String
  message : String
  deriving DecidableEq, Repr

/-- `response.Error(w, status, err, message)`. -/
def response.Error (status : Nat) (err message : String) : ErrResp :=
  { status := status, errorCode := err, message := message }

/-- `response.BadRequest`. -/
def response.BadRequest (message : String) : ErrResp :=
  response.Error 400 "bad_request" message

/-- `response.Conflict`. -/
def response.Conflict (message : String) : ErrResp :=
  response.Error 409 "conflict" message

/-- `response.InternalServerError`. -/
def response.InternalServerError (message : String) : ErrResp :=
  response.Error 500 "internal_error" message

/-- Modelled from the spec: `response.Unauthorized` is called by the handlers
but its definition is not among the provided sources (the `response` package
file here stops at `InternalServerError`).  Per the spec, authentication
failures "collapse to a generic 401 at the HTTP boundary", and the helper
follows the uniform `response.Error` shape of its siblings with code
`unauthorized`. -/
def response.Unauthorized (message : String) : ErrResp :=
  response.Error 401 "unauthorized" message

/-- `AuthHandler.handleError`: validation errors map to 400 with the error's
own text, the uniqueness conflict to 409, `ErrInvalidCredentials` to a 401
with the fixed text "invalid credentials", anything else to a 500. -/
def AuthHandler.handleError (err : DomainError) : ErrResp :=
  if err = .ErrEmailRequired ∨ err = .ErrEmailInvalid ∨ err = .ErrEmailTooLong ∨
      err = .ErrPasswordRequired ∨ err = .ErrPasswordTooShort ∨
      err = .ErrPasswordTooLong ∨ err = .ErrFirstNameRequired ∨
      err = .ErrFirstNameTooLong ∨ err = .ErrLastNameTooLong then
    response.BadRequest err.errText
  else if err = .ErrEmailAlreadyExists then response.Conflict err.errText
  else if err = .ErrInvalidCredentials then response.Unauthorized "invalid credentials"
  else response.InternalServerError "internal server error"

/-! ## JSON string validity (RFC 8259 string grammar), used to judge the
bodies written by `writeUnauthorizedResponse` -/

/-- Hexadecimal digit (for `\uXXXX` escapes). -/
def isHexDigitChar (c : Char) : Bool :=
  c.isDigit || ('a' ≤ c && c ≤ 'f') || ('A' ≤ c && c ≤ 'F')

/-- The single-character escapes of the JSON string grammar. -/
def isEscapeChar (e : Char) : Bool :=
  e = '"' || e = '\\' || e = '/' || e = 'b' || e = 'f' || e = 'n' || e = 'r' ||
    e = 't'

/-- Consume the content of a JSON string literal up to and including its
closing quote, returning the remaining characters; `none` when the content is
not a valid JSON string (an unescaped control character below U+0020, a bad
escape, or a missing closing quote). -/
def jsonStringRest : List Char → Option (List Char)
  | [] => none
  | '"' :: rest => some rest
  | '\\' :: 'u' :: a :: b :: c2 :: d :: rest =>
    if isHexDigitChar a && isHexDigitChar b && isHexDigitChar c2 &&
        isHexDigitChar d then
      jsonStringRest rest
    else none
  | '\\' :: e :: rest => if isEscapeChar e then jsonStringRest rest else none
  | c :: rest => if c.toNat < 32 then none else jsonStringRest rest

/-- Consume an exact leading character sequence. -/
def dropExact : List Char → List Char → Option (List Char)
  | [], rest => some rest
  | p :: ps, c :: cs => if p = c then dropExact ps cs else none
  | _ :: _, [] => none

/-- Whether a body is exactly the JSON object
`\x7b"error":"unauthorized","message":"<valid JSON string content>"\x7d`:
the fixed head, then valid JSON string content whose closing quote is
immediately followed by the closing brace at the end of the body. -/
def validUnauthorizedBody (body : String) : Bool :=
  match dropExact ("\x7b\"error\":\"unauthorized\",\"message\":\"").data body.data with
  | none => false
  | some rest =>
    match jsonStringRest rest with
    | none => false
    | some tail => decide (tail = ['\x7d'])

/-! ## Helper lemmas -/

theorem natOr_eq_zero_iff (a b : Nat) : a ||| b = 0 ↔ a = 0 ∧ b = 0 := by
  constructor
  · intro h
    constructor
    · apply Nat.eq_of_testBit_eq
      intro i
      have h2 := congrArg (fun n => n.testBit i) h
      simp [Nat.testBit_or] at h2
      simp [h2.1]
    · apply Nat.eq_of_testBit_eq
      intro i
      have h2 := congrArg (fun n => n.testBit i) h
      simp [Nat.testBit_or] at h2
      simp [h2.2]
  · rintro ⟨rfl, rfl⟩; rfl

theorem constantTimeByteEq_eq_one_iff (v : Nat) (h : v < 2 ^ 31) :
    constantTimeByteEq v 0 = 1 ↔ v = 0 := by
  simp only [constantTimeByteEq, Nat.xor_zero]
  rcases Nat.eq_zero_or_pos v with rfl | hv
  · norm_num
  · have h1 : (v + (2 ^ 32 - 1)) % 2 ^ 32 = v - 1 := by omega
    rw [h1]
    have h2 : (v - 1) / 2 ^ 31 = 0 := Nat.div_eq_of_lt (by omega)
    omega

theorem ctLoopInstr_fst_eq_zero_iff (x : List Nat) :
    ∀ (y : List Nat) (v : Nat), x.length = y.length →
      ((ctLoopInstr x y v).1 = 0 ↔ v = 0 ∧ x = y) := by
  induction x with
  | nil =>
    intro y v hlen
    cases y with
    | nil => simp [ctLoopInstr]
    | cons b ys => simp at hlen
  | cons a xs ih =>
    intro y v hlen
    cases y with
    | nil => simp at hlen
    | cons b ys =>
      simp only [List.length_cons, Nat.succ.injEq] at hlen
      simp only [ctLoopInstr]
      rw [ih ys (v ||| (a ^^^ b)) hlen, natOr_eq_zero_iff, Nat.xor_eq_zero]
      constructor
      · rintro ⟨⟨hv, hab⟩, hxs⟩
        exact ⟨hv, by rw [hab, hxs]⟩
      · rintro ⟨hv, h2⟩
        injection h2 with h2a h2b
        exact ⟨⟨hv, h2a⟩, h2b⟩

theorem ctLoopInstr_fst_lt (x : List Nat) :
    ∀ (y : List Nat) (v : Nat), (∀ b ∈ x, b < 2 ^ 31) → (∀ b ∈ y, b < 2 ^ 31) →
      v < 2 ^ 31 → (ctLoopInstr x y v).1 < 2 ^ 31 := by
  induction x with
  | nil => intro y v _ _ hv; simpa [ctLoopInstr] using hv
  | cons a xs ih =>
    intro y v hx hy hv
    cases y with
    | nil => simpa [ctLoopInstr] using hv
    | cons b ys =>
      simp only [ctLoopInstr]
      apply ih ys
      · intro c hc; exact hx c (List.mem_cons_of_mem _ hc)
      · intro c hc; exact hy c (List.mem_cons_of_mem _ hc)
      · have ha := hx a (List.mem_cons_self _ _)
        have hb := hy b (List.mem_cons_self _ _)
        exact Nat.or_lt_two_pow hv (Nat.xor_lt_two_pow ha hb)

theorem constantTimeCompare_eq_one_iff (x y : List Nat)
    (hx : ∀ b ∈ x, b < 2 ^ 31) (hy : ∀ b ∈ y, b < 2 ^ 31) :
    constantTimeCompare x y = 1 ↔ x = y := by
  by_cases hlen : x.length = y.length
  · rw [constantTimeCompare, if_neg (by simpa using hlen),
      constantTimeByteEq_eq_one_iff _ (ctLoopInstr_fst_lt x y 0 hx hy (by norm_num)),
      ctLoopInstr_fst_eq_zero_iff x y 0 hlen]
    simp
  · rw [constantTimeCompare, if_pos hlen]
    constructor
    · intro h; exact absurd h (by norm_num)
    · intro h; exact absurd (congrArg List.length h) hlen

theorem char_toNat_lt (c : Char) : c.toNat < 2 ^ 31 := by
  rcases c.valid with h | ⟨h1, h2⟩
  · have he : c.toNat = c.val.toNat := rfl
    omega
  · have he : c.toNat = c.val.toNat := rfl
    omega

theorem strBytes_lt (s : String) : ∀ b ∈ strBytes s, b < 2 ^ 31 := by
  intro b hb
  simp only [strBytes, List.mem_map] at hb
  obtain ⟨c, _, rfl⟩ := hb
  exact char_toNat_lt c

theorem strBytes_inj (a b : String) (h : strBytes a = strBytes b) : a = b := by
  have hd : a.data = b.data := by
    have : Function.Injective Char.toNat := by
      intro c1 c2 hc
      exact Char.eq_of_val_eq (UInt32.ext hc)
    exact List.map_injective_iff.mpr this h
  cases a; cases b; exact congrArg String.mk hd

theorem secureCompare_eq_true_iff (a b : String) :
    secureCompare a b = true ↔ a = b := by
  rw [secureCompare, decide_eq_true_eq,
    constantTimeCompare_eq_one_iff _ _ (strBytes_lt a) (strBytes_lt b)]
  constructor
  · exact strBytes_inj a b
  · rintro rfl; rfl

theorem findKeyLoop_not_mem (p : String) (keys : List String) (base : Nat)
    (h : p ∉ keys) : findKeyLoop p keys base = -1 := by
  induction keys generalizing base with
  | nil => rfl
  | cons k ks ih =>
    have hne : p ≠ k := fun hc => h (hc ▸ List.mem_cons_self _ _)
    have hcmp : secureCompare p k = false := by
      rcases Bool.eq_false_or_eq_true (secureCompare p k) with ht | hf
      · exact absurd ((secureCompare_eq_true_iff p k).mp ht) hne
      · exact hf
    rw [findKeyLoop, hcmp]
    simp only [Bool.false_eq_true, if_false]
    exact ih (base + 1) (fun hc => h (List.mem_cons_of_mem _ hc))

theorem findKeyLoop_first_match (p : String) (keys : List String) :
    ∀ (base i : Nat) (hi : i < keys.length),
      keys.get ⟨i, hi⟩ = p →
      (∀ j (hj : j < i), keys.get ⟨j, Nat.lt_trans hj hi⟩ ≠ p) →
      findKeyLoop p keys base = Int.ofNat (base + i) := by
  induction keys with
  | nil => intro base i hi; exact absurd hi (Nat.not_lt_zero i)
  | cons k ks ih =>
    intro base i hi hmatch hbefore
    cases i with
    | zero =>
      have : secureCompare p k = true := by
        apply (secureCompare_eq_true_iff p k).mpr
        exact (hmatch : k = p).symm
      rw [findKeyLoop, this]
      simp
    | succ n =>
      have hk : k ≠ p := hbefore 0 (Nat.succ_pos n)
      have hcmp : secureCompare p k = false := by
        rcases Bool.eq_false_or_eq_true (secureCompare p k) with ht | hf
        · exact absurd ((secureCompare_eq_true_iff p k).mp ht).symm hk
        · exact hf
      rw [findKeyLoop, hcmp]
      simp only [Bool.false_eq_true, if_false]
      have hn : n < ks.length := Nat.lt_of_succ_lt_succ hi
      have hres := ih (base + 1) n hn hmatch
        (fun j hj => hbefore (j + 1) (Nat.succ_lt_succ hj))
      rw [hres]
      congr 1
      omega

theorem validateToken_signed_eq (m : Manager) (now : Int) (c : Claims)
    (alg : SigningMethod) (key : String) :
    m.ValidateToken now (.signed c alg key) =
      if alg.isHMAC = false then .error .ErrInvalidToken
      else if key ≠ m.secretKey then .error .ErrInvalidToken
      else if (match c.registered.expiresAt with
          | some e => decide (e ≤ now)
          | none => false) then .error .ErrExpiredToken
      else if (match c.registered.notBefore with
          | some n => decide (now < n)
          | none => false) then .error .ErrInvalidToken
      else .ok c := by
  by_cases h1 : alg.isHMAC = false
  · simp [Manager.ValidateToken, Manager.parseWithClaims, h1, ParseFailure.isExpired]
  · by_cases h2 : key = m.secretKey
    · subst h2
      by_cases h3 : (match c.registered.expiresAt with
          | some e => decide (e ≤ now)
          | none => false) = true
      · simp [Manager.ValidateToken, Manager.parseWithClaims, h1, h3,
          ParseFailure.isExpired]
      · by_cases h4 : (match c.registered.notBefore with
            | some n => decide (now < n)
            | none => false) = true
        · simp [Manager.ValidateToken, Manager.parseWithClaims, h1, h3, h4,
            ParseFailure.isExpired]
        · simp [Manager.ValidateToken, Manager.parseWithClaims, h1, h3, h4,
            ParseFailure.isExpired]
    · simp [Manager.ValidateToken, Manager.parseWithClaims, h1, h2,
        ParseFailure.isExpired]

/-- C2: `ValidateToken` returns `ErrExpiredToken` exactly for tokens that are
well-formed, carry a valid HMAC-family signature under the configured key, and
are past their `expiresAt`; it returns `ErrInvalidToken` (and no claims) for
every malformed token, every token whose signature was not produced under the
configured key, and every token whose declared algorithm is outside the HMAC
family. -/
theorem validateToken_error_taxonomy (m : Manager) (now : Int) :
    (∀ t : TokenString,
      m.ValidateToken now t = .error .ErrExpiredToken ↔
        ∃ c alg, t = .signed c alg m.secretKey ∧ alg.isHMAC = true ∧
          ∃ e, c.registered.expiresAt = some e ∧ e ≤ now) ∧
    (m.ValidateToken now .malformed = .error .ErrInvalidToken) ∧
    (∀ c alg key, alg.isHMAC = false →
      m.ValidateToken now (.signed c alg key) = .error .ErrInvalidToken) ∧
    (∀ c alg key, key ≠ m.secretKey →
      m.ValidateToken now (.signed c alg key) = .error .ErrInvalidToken) := by
  refine ⟨?_, ?_, ?_, ?_⟩
  · intro t
    cases t with
    | malformed =>
      constructor
      · intro h
        simp [Manager.ValidateToken, Manager.parseWithClaims,
          ParseFailure.isExpired] at h
      · rintro ⟨c, alg, h, -⟩
        exact absurd h (by simp)
    | signed c alg key =>
      rw [validateToken_signed_eq]
      constructor
      · intro h
        by_cases h1 : alg.isHMAC = false
        · rw [if_pos h1] at h; simp at h
        · rw [if_neg h1] at h
          by_cases h2 : key = m.secretKey
          · subst h2
            by_cases h3 : (match c.registered.expiresAt with
                | some e => decide (e ≤ now)
                | none => false) = true
            · refine ⟨c, alg, rfl, by simpa using h1, ?_⟩
              cases he : c.registered.expiresAt with
              | none => rw [he] at h3; simp at h3
              | some e => rw [he] at h3; exact ⟨e, rfl, by simpa using h3⟩
            · rw [if_neg h3] at h
              by_cases h4 : (match c.registered.notBefore with
                  | some n => decide (now < n)
                  | none => false) = true
              · rw [if_pos h4] at h; simp at h
              · rw [if_neg h4] at h; simp at h
          · rw [if_pos (by simpa using h2)] at h
            exact absurd h (by simp)
      · rintro ⟨c2, alg2, heq, hhmac, e, hexp, hle⟩
        injection heq with hc halg hkey
        subst hc; subst halg; subst hkey
        rw [if_neg (by simp [hhmac]), if_neg (by simp), if_pos (by simp [hexp, hle])]
  · simp [Manager.ValidateToken, Manager.parseWithClaims, ParseFailure.isExpired]
  · intro c alg key h
    rw [validateToken_signed_eq, if_pos h]
  · intro c alg key h
    rw [validateToken_signed_eq]
    by_cases h1 : alg.isHMAC = false
    · rw [if_pos h1]
    · rw [if_neg h1, if_pos (by simpa using h)]

/-- Witness for C2: a freshly expired, correctly signed token yields
`ErrExpiredToken`; a malformed token, a token declaring a non-HMAC algorithm
and a token signed under another key each yield `ErrInvalidToken`. -/
theorem validateToken_error_taxonomy_witness :
    (Manager.ValidateToken ⟨"k", 3600, 86400, "iss"⟩ 10
        (.signed ⟨"u", "e", "user", "access", ⟨some 5, some 0, some 0, "iss", "u"⟩⟩
          .hs256 "k") = .error .ErrExpiredToken) ∧
    (Manager.ValidateToken ⟨"k", 3600, 86400, "iss"⟩ 10 .malformed
      = .error .ErrInvalidToken) ∧
    (Manager.ValidateToken ⟨"k", 3600, 86400, "iss"⟩ 10
        (.signed ⟨"u", "e", "user", "access", ⟨some 99, some 0, some 0, "iss", "u"⟩⟩
          .rs256 "k") = .error .ErrInvalidToken) ∧
    (Manager.ValidateToken ⟨"k", 3600, 86400, "iss"⟩ 10
        (.signed ⟨"u", "e", "user", "access", ⟨some 99, some 0, some 0, "iss", "u"⟩⟩
          .hs256 "wrong") = .error .ErrInvalidToken) := by
  have h := validateToken_error_taxonomy ⟨"k", 3600, 86400, "iss"⟩ 10
  exact ⟨(h.1 _).mpr ⟨_, _, rfl, rfl, 5, rfl, by decide⟩, h.2.1,
    h.2.2.1 _ _ _ rfl, h.2.2.2 _ _ _ (by decide)⟩

/-- C3: a token freshly generated by a manager validates with the same
manager at the issuance instant (for a positive TTL), the returned claims
carry exactly the requested user id, email, role and token type, and the
timestamps satisfy notBefore ≤ issuedAt < expiresAt. -/
theorem generate_validate_roundtrip (m : Manager) (now : Int)
    (userID email role tokenType : String) (ttl : Int) (h : 0 < ttl) :
    ∃ c : Claims,
      m.ValidateToken now (m.generateToken now userID email role tokenType ttl)
          = .ok c ∧
      c.userID = userID ∧ c.email = email ∧ c.role = role ∧
      c.tokenType = tokenType ∧
      c.registered.notBefore = some now ∧ c.registered.issuedAt = some now ∧
      c.registered.expiresAt = some (now + ttl) ∧
      now ≤ now ∧ now < now + ttl := by
  refine ⟨{ userID := userID, email := email, role := role,
            tokenType := tokenType,
            registered := { expiresAt := some (now + ttl), issuedAt := some now,
                            notBefore := some now, issuer := m.issuer,
                            subject := userID } },
    ?_, rfl, rfl, rfl, rfl, rfl, rfl, rfl, le_refl now, by omega⟩
  rw [Manager.generateToken, validateToken_signed_eq]
  rw [if_neg (by simp [SigningMethod.isHMAC]), if_neg (by simp)]
  rw [if_neg (by simp; omega), if_neg (by simp)]

/-- Witness for C3 at a concrete manager, instant and TTL. -/
theorem generate_validate_roundtrip_witness :
    (0 : Int) < 3600 ∧
    ∃ c : Claims,
      Manager.ValidateToken ⟨"k", 3600, 86400, "iss"⟩ 0
          (Manager.generateToken ⟨"k", 3600, 86400, "iss"⟩ 0 "u1" "e@x.co" "user"
            "refresh" 3600) = .ok c ∧
      c.userID = "u1" ∧ c.email = "e@x.co" ∧ c.role = "user" ∧
      c.tokenType = "refresh" ∧
      c.registered.notBefore = some 0 ∧ c.registered.issuedAt = some 0 ∧
      c.registered.expiresAt = some (0 + 3600) ∧
      (0 : Int) ≤ 0 ∧ (0 : Int) < 0 + 3600 :=
  ⟨by decide,
    generate_validate_roundtrip ⟨"k", 3600, 86400, "iss"⟩ 0 "u1" "e@x.co" "user"
      "refresh" 3600 (by decide)⟩

/-- C1: on a non-health request whose `Authorization` header carries the
Bearer prefix, the gate attaches the JWT identity (user id, email, role) and
`AuthType=JWT` and proceeds exactly when the token validates as an `access`
token; on any validation failure — in particular for every freshly issued
refresh token, which never validates as an access token — it responds 401
immediately, never reaching the API-key path. -/
theorem authenticate_bearer_gate (m : Middleware) (mgr : Manager) (now : Int)
    (ctx : ReqContext) (r : Request) (t : TokenString)
    (hpath : r.path ≠ "/health") (hhdr : r.authHeader = .bearer t)
    (hmgr : m.jwtManager = some mgr) :
    (∀ c, mgr.ValidateAccessToken now t = .ok c →
      m.Authenticate now ctx r =
        .next { ctx with userID := some c.userID, userEmail := some c.email,
                         userRole := some c.role, authType := some .jwt }) ∧
    (∀ e, mgr.ValidateAccessToken now t = .error e →
      m.Authenticate now ctx r =
        .responded (writeUnauthorizedResponse "invalid or expired token")) ∧
    (∀ userID email role, ∃ e,
      mgr.ValidateAccessToken now (mgr.GenerateRefreshToken now userID email role)
        = .error e) := by
  refine ⟨?_, ?_, ?_⟩
  · intro c hc
    rw [Middleware.Authenticate, if_neg hpath, hhdr]
    simp [Middleware.authenticateJWT, hmgr, hc]
  · intro e he
    rw [Middleware.Authenticate, if_neg hpath, hhdr]
    simp [Middleware.authenticateJWT, hmgr, he]
  · intro userID email role
    by_cases hx : now + mgr.refreshTokenExpiry ≤ now
    · refine ⟨.ErrExpiredToken, ?_⟩
      simp [Manager.GenerateRefreshToken, Manager.generateToken,
        Manager.ValidateAccessToken, validateToken_signed_eq,
        SigningMethod.isHMAC, hx]
    · refine ⟨.ErrInvalidTokenType, ?_⟩
      simp [Manager.GenerateRefreshToken, Manager.generateToken,
        Manager.ValidateAccessToken, validateToken_signed_eq,
        SigningMethod.isHMAC, hx, TokenTypeRefresh, TokenTypeAccess]

/-- Witness for C1: a valid access token passes the gate with the JWT
identity attached; the matching refresh token is rejected. -/
theorem authenticate_bearer_gate_witness :
    (Middleware.Authenticate ⟨⟨["k1"]⟩, some ⟨"s", 3600, 86400, "iss"⟩⟩ 0
        ⟨none, none, none, none, none⟩
        ⟨"/api/v1/services",
          .bearer (.signed ⟨"u", "e", "user", "access",
            ⟨some 100, some 0, some 0, "iss", "u"⟩⟩ .hs256 "s"), ""⟩
      = .next ⟨none, some "u", some "e", some "user", some .jwt⟩) ∧
    (∃ e, Manager.ValidateAccessToken ⟨"s", 3600, 86400, "iss"⟩ 0
        (Manager.GenerateRefreshToken ⟨"s", 3600, 86400, "iss"⟩ 0 "u" "e" "user")
      = .error e) := by
  have h := authenticate_bearer_gate ⟨⟨["k1"]⟩, some ⟨"s", 3600, 86400, "iss"⟩⟩
    ⟨"s", 3600, 86400, "iss"⟩ 0 ⟨none, none, none, none, none⟩
    ⟨"/api/v1/services",
      .bearer (.signed ⟨"u", "e", "user", "access",
        ⟨some 100, some 0, some 0, "iss", "u"⟩⟩ .hs256 "s"), ""⟩
    (.signed ⟨"u", "e", "user", "access",
      ⟨some 100, some 0, some 0, "iss", "u"⟩⟩ .hs256 "s")
    (by decide) rfl rfl
  exact ⟨h.1 ⟨"u", "e", "user", "access", ⟨some 100, some 0, some 0, "iss", "u"⟩⟩ rfl,
    h.2.2 "u" "e" "user"⟩

theorem authenticateAPIKey_not_mem (m : Middleware) (ctx : ReqContext)
    (key : String) (h : key ∉ m.config.apiKeys) :
    m.authenticateAPIKey ctx key = none := by
  by_cases hk : m.config.HasAPIKeys = false
  · simp [Middleware.authenticateAPIKey, hk]
  · have hfind : m.findValidKeyIndex key = -1 := by
      rw [Middleware.findValidKeyIndex]
      exact findKeyLoop_not_mem key _ 0 h
    simp [Middleware.authenticateAPIKey, hk, hfind]

theorem authenticateAPIKey_first_match (m : Middleware) (ctx : ReqContext)
    (key : String) (i : Nat) (hi : i < m.config.apiKeys.length)
    (hmatch : m.config.apiKeys.get ⟨i, hi⟩ = key)
    (hbefore : ∀ j (hj : j < i), m.config.apiKeys.get ⟨j, Nat.lt_trans hj hi⟩ ≠ key) :
    m.authenticateAPIKey ctx key =
      some { ctx with apiKeyID := some (Int.ofNat i), authType := some .apiKey } := by
  have hne : m.config.apiKeys ≠ [] := by
    intro h0
    rw [h0] at hi
    exact absurd hi (by simp)
  have hhas : m.config.HasAPIKeys = true := by
    simp [Config.HasAPIKeys, List.length_pos.mpr hne]
  have hfind : m.findValidKeyIndex key = Int.ofNat i := by
    rw [Middleware.findValidKeyIndex]
    simpa using findKeyLoop_first_match key m.config.apiKeys 0 i hi hmatch hbefore
  have hneq : (Int.ofNat i : Int) ≠ -1 := by
    intro hcon
    rw [Int.ofNat_eq_natCast] at hcon
    omega
  simp [Middleware.authenticateAPIKey, hhas, hfind, hneq]

/-- C4 (amended with the health-path exclusion): on a non-health request with
no Bearer-prefixed `Authorization` header and a non-empty `X-API-Key` header,
an empty configured key list rejects every candidate with 401 (fail closed); a
candidate equal to a configured key, at least matching index `i` in
configuration order, proceeds with `APIKeyIdentity{i}` and `AuthType=APIKey`
attached; a candidate matching no configured key is rejected with 401. -/
theorem authenticate_apikey_gate (m : Middleware) (now : Int) (ctx : ReqContext)
    (r : Request)
    (hpath : r.path ≠ "/health")
    (hbearer : ∀ t, r.authHeader ≠ .bearer t)
    (hkey : r.apiKey ≠ "") :
    (m.config.apiKeys = [] →
      m.Authenticate now ctx r =
        .responded (writeUnauthorizedResponse "invalid credentials")) ∧
    (∀ i (hi : i < m.config.apiKeys.length),
      m.config.apiKeys.get ⟨i, hi⟩ = r.apiKey →
      (∀ j (hj : j < i), m.config.apiKeys.get ⟨j, Nat.lt_trans hj hi⟩ ≠ r.apiKey) →
      m.Authenticate now ctx r =
        .next { ctx with apiKeyID := some (Int.ofNat i), authType := some .apiKey }) ∧
    (r.apiKey ∉ m.config.apiKeys →
      m.Authenticate now ctx r =
        .responded (writeUnauthorizedResponse "invalid credentials")) := by
  have hred : ∀ g : GateResult,
      (match m.authenticateAPIKey ctx r.apiKey with
        | some ctx2 => GateResult.next ctx2
        | none => .responded (writeUnauthorizedResponse "invalid credentials")) = g →
      m.Authenticate now ctx r = g := by
    intro g hg
    rw [Middleware.Authenticate, if_neg hpath]
    cases hh : r.authHeader with
    | bearer t => exact absurd hh (hbearer t)
    | noHeader => simpa [hkey] using hg
    | other s => simpa [hkey] using hg
  refine ⟨?_, ?_, ?_⟩
  · intro hempty
    apply hred
    rw [authenticateAPIKey_not_mem m ctx r.apiKey (by simp [hempty])]
  · intro i hi hmatch hbefore
    apply hred
    rw [authenticateAPIKey_first_match m ctx r.apiKey i hi hmatch hbefore]
  · intro hmem
    apply hred
    rw [authenticateAPIKey_not_mem m ctx r.apiKey hmem]

/-- Counterexample to C4 as stated: the claim quantifies over every request
with no Bearer header and a non-empty `X-API-Key`, but a request for the
health path with a non-empty `X-API-Key` and an empty configured key list is
passed through (with no identity attached) rather than rejected with 401 —
the health bypass precedes the API-key logic. -/
theorem authenticate_apikey_health_counterexample :
    Middleware.Authenticate ⟨⟨[]⟩, none⟩ 0 ⟨none, none, none, none, none⟩
        ⟨"/health", .noHeader, "any-key"⟩
      = .next ⟨none, none, none, none, none⟩ ∧
    ∀ resp, Middleware.Authenticate ⟨⟨[]⟩, none⟩ 0 ⟨none, none, none, none, none⟩
        ⟨"/health", .noHeader, "any-key"⟩ ≠ .responded resp := by
  constructor
  · rfl
  · intro resp h
    rw [Middleware.Authenticate] at h
    simp at h

/-- Witness for the amended C4: with keys `["k1", "k2"]`, the candidate `k2`
proceeds with index 1 and `AuthType=APIKey`; `k3` is rejected; with no
configured keys, `k3` is also rejected (fail closed). -/
theorem authenticate_apikey_gate_witness :
    (Middleware.Authenticate ⟨⟨["k1", "k2"]⟩, none⟩ 0 ⟨none, none, none, none, none⟩
        ⟨"/api/v1/services", .noHeader, "k2"⟩
      = .next ⟨some (Int.ofNat 1), none, none, none, some .apiKey⟩) ∧
    (Middleware.Authenticate ⟨⟨["k1", "k2"]⟩, none⟩ 0 ⟨none, none, none, none, none⟩
        ⟨"/api/v1/services", .noHeader, "k3"⟩
      = .responded (writeUnauthorizedResponse "invalid credentials")) ∧
    (Middleware.Authenticate ⟨⟨[]⟩, none⟩ 0 ⟨none, none, none, none, none⟩
        ⟨"/api/v1/services", .noHeader, "k3"⟩
      = .responded (writeUnauthorizedResponse "invalid credentials")) := by
  have h1 := authenticate_apikey_gate ⟨⟨["k1", "k2"]⟩, none⟩ 0
    ⟨none, none, none, none, none⟩ ⟨"/api/v1/services", .noHeader, "k2"⟩
    (by decide) (fun t h => nomatch h) (by decide)
  have h2 := authenticate_apikey_gate ⟨⟨["k1", "k2"]⟩, none⟩ 0
    ⟨none, none, none, none, none⟩ ⟨"/api/v1/services", .noHeader, "k3"⟩
    (by decide) (fun t h => nomatch h) (by decide)
  have h3 := authenticate_apikey_gate ⟨⟨[]⟩, none⟩ 0
    ⟨none, none, none, none, none⟩ ⟨"/api/v1/services", .noHeader, "k3"⟩
    (by decide) (fun t h => nomatch h) (by decide)
  refine ⟨h1.2.1 1 (by decide) (by decide) ?_, h2.2.2 (by decide), h3.1 rfl⟩
  intro j hj
  have hj0 : j = 0 := by omega
  subst hj0
  show ("k1" : String) ≠ "k2"
  decide

theorem ctLoopInstr_snd_eq_length (x : List Nat) :
    ∀ (y : List Nat) (v : Nat), x.length = y.length →
      (ctLoopInstr x y v).2 = x.length := by
  induction x with
  | nil => intro y v _; rfl
  | cons a xs ih =>
    intro y v hlen
    cases y with
    | nil => simp at hlen
    | cons b ys =>
      simp only [List.length_cons, Nat.succ.injEq] at hlen
      simp only [ctLoopInstr, List.length_cons]
      rw [ih ys (v ||| (a ^^^ b)) hlen]

/-- C9: the byte comparison used by the gate (`secureCompare` via
`subtle.ConstantTimeCompare`) is constant-time in the cost model that charges
one unit per loop iteration: on equal-length inputs the loop always runs over
every byte position — the iteration count equals the full length and is
identical for any two same-length candidates regardless of how long a prefix
matches — and the comparison result is computed from the accumulator of that
full, non-short-circuiting loop. -/
theorem secureCompare_constant_time (x y z : List Nat)
    (hxy : x.length = y.length) (hxz : x.length = z.length) :
    (ctLoopInstr x y 0).2 = x.length ∧
    (ctLoopInstr x y 0).2 = (ctLoopInstr x z 0).2 ∧
    constantTimeCompare x y = constantTimeByteEq (ctLoopInstr x y 0).1 0 := by
  refine ⟨ctLoopInstr_snd_eq_length x y 0 hxy, ?_, ?_⟩
  · rw [ctLoopInstr_snd_eq_length x y 0 hxy, ctLoopInstr_snd_eq_length x z 0 hxz]
  · rw [constantTimeCompare, if_neg (by simpa using hxy)]

/-- Witness for C9: a candidate matching on a 2-byte prefix and a fully
mismatched candidate both cost exactly 3 iterations against a 3-byte key. -/
theorem secureCompare_constant_time_witness :
    (ctLoopInstr [107, 49, 50] [107, 49, 57] 0).2 = List.length [107, 49, 50] ∧
    (ctLoopInstr [107, 49, 50] [107, 49, 57] 0).2
      = (ctLoopInstr [107, 49, 50] [57, 57, 57] 0).2 ∧
    constantTimeCompare [107, 49, 50] [107, 49, 57]
      = constantTimeByteEq (ctLoopInstr [107, 49, 50] [107, 49, 57] 0).1 0 :=
  secureCompare_constant_time [107, 49, 50] [107, 49, 57] [57, 57, 57] rfl rfl

/-- C10: `User.ToResponse` is independent of the `PasswordHash` field — two
user records that differ only in their password hash produce identical API
responses, so the response representation never contains the stored hash. -/
theorem toResponse_independent_of_passwordHash (u : User) (ph : String) :
    User.ToResponse { u with passwordHash := ph } = u.ToResponse :=
  rfl

/-- C5: with a non-empty email and password, `Login` returns the very same
error value `ErrInvalidCredentials` when no user has the email, when the user
exists but is inactive, and when the user is active but the password fails
verification — and the handler maps that single value to one fixed HTTP
response (401, code `unauthorized`, message `invalid credentials`), so the
three failures are indistinguishable on the wire. -/
theorem login_uniform_invalid_credentials (s : AuthService) (bc : BcryptModel)
    (st : UserStore) (now : Int) (req : LoginRequest)
    (hemail : req.email ≠ "") (hpw : req.password ≠ "") :
    (st.getByEmail (goToLower req.email) = .error .ErrUserNotFound →
      s.Login bc st now req = .error .ErrInvalidCredentials) ∧
    (∀ u, st.getByEmail (goToLower req.email) = .ok u → u.active = false →
      s.Login bc st now req = .error .ErrInvalidCredentials) ∧
    (∀ u, st.getByEmail (goToLower req.email) = .ok u → u.active = true →
      User.CheckPassword bc u req.password = false →
      s.Login bc st now req = .error .ErrInvalidCredentials) ∧
    AuthHandler.handleError .ErrInvalidCredentials
      = { status := 401, errorCode := "unauthorized",
          message := "invalid credentials" } := by
  refine ⟨?_, ?_, ?_, ?_⟩
  · intro h
    rw [AuthService.Login, if_neg hemail, if_neg hpw, h]
    simp
  · intro u hu hact
    rw [AuthService.Login, if_neg hemail, if_neg hpw, hu]
    simp [hact]
  · intro u hu hact hpwcheck
    rw [AuthService.Login, if_neg hemail, if_neg hpw, hu]
    simp [hact, hpwcheck]
  · decide

/-- Witness for C5: against a store holding an active user `a@b.co` (hash of
`pw1`) and an inactive user `c@d.co`, login with an unknown email, with the
inactive user's correct password, and with the active user's wrong password
all return exactly `ErrInvalidCredentials`. -/
theorem login_uniform_invalid_credentials_witness :
    (AuthService.Login ⟨⟨"k", 3600, 86400, "iss"⟩⟩
        ⟨fun p => "h:" ++ p, fun h p => decide (h = "h:" ++ p)⟩
        ⟨[⟨1, "a@b.co", "h:pw1", "A", "B", "user", true, 0, 0⟩,
          ⟨2, "c@d.co", "h:pw2", "C", "D", "user", false, 0, 0⟩], 3⟩ 0
        ⟨"no@x.co", "whatever1"⟩ = .error .ErrInvalidCredentials) ∧
    (AuthService.Login ⟨⟨"k", 3600, 86400, "iss"⟩⟩
        ⟨fun p => "h:" ++ p, fun h p => decide (h = "h:" ++ p)⟩
        ⟨[⟨1, "a@b.co", "h:pw1", "A", "B", "user", true, 0, 0⟩,
          ⟨2, "c@d.co", "h:pw2", "C", "D", "user", false, 0, 0⟩], 3⟩ 0
        ⟨"c@d.co", "pw2"⟩ = .error .ErrInvalidCredentials) ∧
    (AuthService.Login ⟨⟨"k", 3600, 86400, "iss"⟩⟩
        ⟨fun p => "h:" ++ p, fun h p => decide (h = "h:" ++ p)⟩
        ⟨[⟨1, "a@b.co", "h:pw1", "A", "B", "user", true, 0, 0⟩,
          ⟨2, "c@d.co", "h:pw2", "C", "D", "user", false, 0, 0⟩], 3⟩ 0
        ⟨"a@b.co", "wrong-pw"⟩ = .error .ErrInvalidCredentials) := by
  have h1 := login_uniform_invalid_credentials ⟨⟨"k", 3600, 86400, "iss"⟩⟩
    ⟨fun p => "h:" ++ p, fun h p => decide (h = "h:" ++ p)⟩
    ⟨[⟨1, "a@b.co", "h:pw1", "A", "B", "user", true, 0, 0⟩,
      ⟨2, "c@d.co", "h:pw2", "C", "D", "user", false, 0, 0⟩], 3⟩ 0
    ⟨"no@x.co", "whatever1"⟩ (by decide) (by decide)
  have h2 := login_uniform_invalid_credentials ⟨⟨"k", 3600, 86400, "iss"⟩⟩
    ⟨fun p => "h:" ++ p, fun h p => decide (h = "h:" ++ p)⟩
    ⟨[⟨1, "a@b.co", "h:pw1", "A", "B", "user", true, 0, 0⟩,
      ⟨2, "c@d.co", "h:pw2", "C", "D", "user", false, 0, 0⟩], 3⟩ 0
    ⟨"c@d.co", "pw2"⟩ (by decide) (by decide)
  have h3 := login_uniform_invalid_credentials ⟨⟨"k", 3600, 86400, "iss"⟩⟩
    ⟨fun p => "h:" ++ p, fun h p => decide (h = "h:" ++ p)⟩
    ⟨[⟨1, "a@b.co", "h:pw1", "A", "B", "user", true, 0, 0⟩,
      ⟨2, "c@d.co", "h:pw2", "C", "D", "user", false, 0, 0⟩], 3⟩ 0
    ⟨"a@b.co", "wrong-pw"⟩ (by decide) (by decide)
  exact ⟨h1.1 rfl,
    h2.2.1 ⟨2, "c@d.co", "h:pw2", "C", "D", "user", false, 0, 0⟩ rfl rfl,
    h3.2.2.1 ⟨1, "a@b.co", "h:pw1", "A", "B", "user", true, 0, 0⟩ rfl rfl rfl⟩

/-- C6: `RefreshToken` succeeds exactly when the input validates as a
(correctly signed, unexpired) token of type `refresh` and the re-fetched user
exists and is active; every failure returns `ErrInvalidCredentials`; on
success the bundle is a freshly issued access+refresh pair with
`tokenType = "Bearer"`, `expiresIn` equal to the access-token TTL in seconds,
and the user's response summary. -/
theorem refreshToken_spec (s : AuthService) (st : UserStore) (now : Int)
    (tok : TokenString) :
    ((∃ resp, s.RefreshToken st now tok = .ok resp) ↔
      (∃ c u, s.jwtManager.ValidateRefreshToken now tok = .ok c ∧
        st.getByID c.userID = .ok u ∧ u.active = true)) ∧
    (∀ e, s.RefreshToken st now tok = .error e → e = .ErrInvalidCredentials) ∧
    (∀ c u, s.jwtManager.ValidateRefreshToken now tok = .ok c →
      st.getByID c.userID = .ok u → u.active = true →
      s.RefreshToken st now tok = .ok (s.generateAuthResponse now u) ∧
      (s.generateAuthResponse now u).tokenType = "Bearer" ∧
      (s.generateAuthResponse now u).expiresIn
        = s.jwtManager.GetAccessTokenExpiry ∧
      (s.generateAuthResponse now u).accessToken
        = s.jwtManager.GenerateAccessToken now (toString u.id) u.email u.role ∧
      (s.generateAuthResponse now u).refreshToken
        = s.jwtManager.GenerateRefreshToken now (toString u.id) u.email u.role ∧
      (s.generateAuthResponse now u).user = u.ToResponse) := by
  refine ⟨⟨?_, ?_⟩, ?_, ?_⟩
  · rintro ⟨resp, hresp⟩
    cases hv : s.jwtManager.ValidateRefreshToken now tok with
    | error e => simp [AuthService.RefreshToken, hv] at hresp
    | ok c =>
      cases hu : st.getByID c.userID with
      | error e => simp [AuthService.RefreshToken, hv, hu] at hresp
      | ok u =>
        by_cases hact : u.active = false
        · simp [AuthService.RefreshToken, hv, hu, hact] at hresp
        · exact ⟨c, u, rfl, hu, by simpa using hact⟩
  · rintro ⟨c, u, hv, hu, hact⟩
    exact ⟨s.generateAuthResponse now u,
      by simp [AuthService.RefreshToken, hv, hu, hact]⟩
  · intro e he
    cases hv : s.jwtManager.ValidateRefreshToken now tok with
    | error e2 =>
      simp [AuthService.RefreshToken, hv] at he
      exact he.symm
    | ok c =>
      cases hu : st.getByID c.userID with
      | error e2 =>
        simp [AuthService.RefreshToken, hv, hu] at he
        exact he.symm
      | ok u =>
        by_cases hact : u.active = false
        · simp [AuthService.RefreshToken, hv, hu, hact] at he
          exact he.symm
        · simp [AuthService.RefreshToken, hv, hu, hact] at he
  · intro c u hv hu hact
    exact ⟨by simp [AuthService.RefreshToken, hv, hu, hact], rfl, rfl, rfl, rfl, rfl⟩

/-- Witness for C6: a valid refresh token for the stored active user `1`
yields a fresh bundle with `tokenType = "Bearer"` and the configured 3600
second `expiresIn`; flipping the same user to inactive (or presenting an
access-typed token) yields `ErrInvalidCredentials`. -/
theorem refreshToken_spec_witness :
    (AuthService.RefreshToken ⟨⟨"k", 3600, 86400, "iss"⟩⟩
        ⟨[⟨1, "a@b.co", "h:pw1", "A", "B", "user", true, 0, 0⟩], 2⟩ 0
        (.signed ⟨"1", "a@b.co", "user", "refresh",
          ⟨some 100, some 0, some 0, "iss", "1"⟩⟩ .hs256 "k")
      = .ok (AuthService.generateAuthResponse ⟨⟨"k", 3600, 86400, "iss"⟩⟩ 0
          ⟨1, "a@b.co", "h:pw1", "A", "B", "user", true, 0, 0⟩)) ∧
    (AuthService.generateAuthResponse ⟨⟨"k", 3600, 86400, "iss"⟩⟩ 0
        ⟨1, "a@b.co", "h:pw1", "A", "B", "user", true, 0, 0⟩).tokenType
      = "Bearer" ∧
    (AuthService.generateAuthResponse ⟨⟨"k", 3600, 86400, "iss"⟩⟩ 0
        ⟨1, "a@b.co", "h:pw1", "A", "B", "user", true, 0, 0⟩).expiresIn
      = Manager.GetAccessTokenExpiry ⟨"k", 3600, 86400, "iss"⟩ ∧
    (∀ e, AuthService.RefreshToken ⟨⟨"k", 3600, 86400, "iss"⟩⟩
        ⟨[⟨1, "a@b.co", "h:pw1", "A", "B", "user", false, 0, 0⟩], 2⟩ 0
        (.signed ⟨"1", "a@b.co", "user", "refresh",
          ⟨some 100, some 0, some 0, "iss", "1"⟩⟩ .hs256 "k")
        = .error e → e = .ErrInvalidCredentials) := by
  have h := refreshToken_spec ⟨⟨"k", 3600, 86400, "iss"⟩⟩
    ⟨[⟨1, "a@b.co", "h:pw1", "A", "B", "user", true, 0, 0⟩], 2⟩ 0
    (.signed ⟨"1", "a@b.co", "user", "refresh",
      ⟨some 100, some 0, some 0, "iss", "1"⟩⟩ .hs256 "k")
  have h2 := refreshToken_spec ⟨⟨"k", 3600, 86400, "iss"⟩⟩
    ⟨[⟨1, "a@b.co", "h:pw1", "A", "B", "user", false, 0, 0⟩], 2⟩ 0
    (.signed ⟨"1", "a@b.co", "user", "refresh",
      ⟨some 100, some 0, some 0, "iss", "1"⟩⟩ .hs256 "k")
  have h3 := h.2.2 ⟨"1", "a@b.co", "user", "refresh",
      ⟨some 100, some 0, some 0, "iss", "1"⟩⟩
    ⟨1, "a@b.co", "h:pw1", "A", "B", "user", true, 0, 0⟩ rfl rfl rfl
  exact ⟨h3.1, h3.2.1, h3.2.2.1, h2.2.1⟩

theorem validateRegisterRequest_ok_iff (s : AuthService) (req : RegisterRequest) :
    s.validateRegisterRequest req = .ok () ↔
      ¬(req.email = "" ∨ byteLen req.email > 255 ∨
        emailRegexMatch req.email = false ∨ req.password = "" ∨
        byteLen req.password < 8 ∨ byteLen req.password > 72 ∨
        goTrimSpace req.firstName = "" ∨ byteLen req.firstName > 100 ∨
        byteLen req.lastName > 100) := by
  rw [AuthService.validateRegisterRequest]
  by_cases h1 : req.email = ""
  · simp [h1]
  · rw [if_neg h1]
    by_cases h2 : byteLen req.email > 255
    · simp [h1, h2]
    · rw [if_neg h2]
      by_cases h3 : emailRegexMatch req.email = false
      · simp [h1, h2, h3]
      · rw [if_neg h3]
        by_cases h4 : req.password = ""
        · simp [h1, h2, h3, h4]
        · rw [if_neg h4]
          by_cases h5 : byteLen req.password < 8
          · simp [h1, h2, h3, h4, h5]
          · rw [if_neg h5]
            by_cases h6 : byteLen req.password > 72
            · simp [h1, h2, h3, h4, h5, h6]
            · rw [if_neg h6]
              by_cases h7 : goTrimSpace req.firstName = ""
              · simp [h1, h2, h3, h4, h5, h6, h7]
              · rw [if_neg h7]
                by_cases h8 : byteLen req.firstName > 100
                · simp [h1, h2, h3, h4, h5, h6, h7, h8]
                · rw [if_neg h8]
                  by_cases h9 : byteLen req.lastName > 100
                  · simp [h1, h2, h3, h4, h5, h6, h7, h8, h9]
                  · rw [if_neg h9]
                    simp [h1, h2, h3, h4, h5, h6, h7, h8, h9]

/-- C7: `Register` returns the reported field-validation error, with the
store untouched, exactly when the email is empty/over 255 bytes/not of valid
shape, the password is empty/under 8/over 72 bytes, the trimmed first name is
empty or the first name is over 100 bytes, or the last name is over 100 bytes;
otherwise, when the email is not already taken, it persists exactly one new
user — lower-cased email, trimmed names, role `"user"`, `active = true`, and
a bcrypt hash in place of the plaintext password — and returns the fresh
access+refresh token bundle for that user. -/
theorem register_spec (s : AuthService) (bc : BcryptModel) (st : UserStore)
    (now : Int) (req : RegisterRequest) :
    (∀ e, s.validateRegisterRequest req = .error e →
      s.Register bc st now req = (.error e, st)) ∧
    ((∃ e, s.validateRegisterRequest req = .error e) ↔
      (req.email = "" ∨ byteLen req.email > 255 ∨
        emailRegexMatch req.email = false ∨ req.password = "" ∨
        byteLen req.password < 8 ∨ byteLen req.password > 72 ∨
        goTrimSpace req.firstName = "" ∨ byteLen req.firstName > 100 ∨
        byteLen req.lastName > 100)) ∧
    (s.validateRegisterRequest req = .ok () →
      st.existsByEmail (goToLower req.email) = false →
      s.Register bc st now req =
        (.ok (s.generateAuthResponse now
            { id := st.nextID, email := goToLower req.email,
              passwordHash := bc.generate req.password,
              firstName := goTrimSpace req.firstName,
              lastName := goTrimSpace req.lastName,
              role := RoleUser, active := true,
              createdAt := now, updatedAt := now }),
          { users := st.users ++
              [{ id := st.nextID, email := goToLower req.email,
                 passwordHash := bc.generate req.password,
                 firstName := goTrimSpace req.firstName,
                 lastName := goTrimSpace req.lastName,
                 role := RoleUser, active := true,
                 createdAt := now, updatedAt := now }],
            nextID := st.nextID + 1 })) := by
  refine ⟨?_, ?_, ?_⟩
  · intro e he
    simp [AuthService.Register, he]
  · constructor
    · rintro ⟨e, he⟩
      by_contra hnot
      rw [← validateRegisterRequest_ok_iff s req] at hnot
      rw [hnot] at he
      exact absurd he (by simp)
    · intro hdisj
      cases hv : s.validateRegisterRequest req with
      | error e => exact ⟨e, rfl⟩
      | ok u =>
        cases u
        rw [validateRegisterRequest_ok_iff s req] at hv
        exact absurd hdisj hv
  · intro hvalid hexists
    have hnot := (validateRegisterRequest_ok_iff s req).mp hvalid
    simp only [not_or] at hnot
    have hpw : ¬ byteLen req.password > 72 := hnot.2.2.2.2.2.1
    have hany : st.users.any (fun v => v.email = goToLower req.email) = false := by
      simpa [UserStore.existsByEmail] using hexists
    simp [AuthService.Register, hvalid, hexists, User.SetPassword,
      bcryptGenerateFromPassword, hpw, UserStore.create, hany]

/-- Witness for C7: a malformed email is rejected with `ErrEmailInvalid` and
no write; a first name that is a lone no-break space (U+00A0) trims to empty
and is rejected with `ErrFirstNameRequired`; a valid registration against an
empty store persists exactly the lower-cased, trimmed, role-`user`, active
record holding the bcrypt hash. -/
theorem register_spec_witness :
    (AuthService.Register ⟨⟨"k", 3600, 86400, "iss"⟩⟩
        ⟨fun p => "h:" ++ p, fun h p => decide (h = "h:" ++ p)⟩ ⟨[], 1⟩ 5
        ⟨"bad", "password1", "J", ""⟩
      = (.error .ErrEmailInvalid, ⟨[], 1⟩)) ∧
    (AuthService.Register ⟨⟨"k", 3600, 86400, "iss"⟩⟩
        ⟨fun p => "h:" ++ p, fun h p => decide (h = "h:" ++ p)⟩ ⟨[], 1⟩ 5
        ⟨"a@b.co", "password1", "\u00A0", ""⟩
      = (.error .ErrFirstNameRequired, ⟨[], 1⟩)) ∧
    (AuthService.Register ⟨⟨"k", 3600, 86400, "iss"⟩⟩
        ⟨fun p => "h:" ++ p, fun h p => decide (h = "h:" ++ p)⟩ ⟨[], 1⟩ 5
        ⟨"New@Example.com", "password1", " John ", "Doe"⟩
      = (.ok (AuthService.generateAuthResponse ⟨⟨"k", 3600, 86400, "iss"⟩⟩ 5
            ⟨1, "new@example.com", "h:password1", "John", "Doe", "user",
              true, 5, 5⟩),
          ⟨[⟨1, "new@example.com", "h:password1", "John", "Doe", "user",
              true, 5, 5⟩], 2⟩)) := by
  have h1 := register_spec ⟨⟨"k", 3600, 86400, "iss"⟩⟩
    ⟨fun p => "h:" ++ p, fun h p => decide (h = "h:" ++ p)⟩ ⟨[], 1⟩ 5
    ⟨"bad", "password1", "J", ""⟩
  have h2 := register_spec ⟨⟨"k", 3600, 86400, "iss"⟩⟩
    ⟨fun p => "h:" ++ p, fun h p => decide (h = "h:" ++ p)⟩ ⟨[], 1⟩ 5
    ⟨"New@Example.com", "password1", " John ", "Doe"⟩
  have h3 := register_spec ⟨⟨"k", 3600, 86400, "iss"⟩⟩
    ⟨fun p => "h:" ++ p, fun h p => decide (h = "h:" ++ p)⟩ ⟨[], 1⟩ 5
    ⟨"a@b.co", "password1", "\u00A0", ""⟩
  exact ⟨h1.1 .ErrEmailInvalid rfl, h3.1 .ErrFirstNameRequired rfl, h2.2.2 rfl rfl⟩

theorem replaceBoth_cons (c : Char) (s : List Char) :
    replaceChar '"' ['\\', '"'] (replaceChar '\\' ['\\', '\\'] (c :: s)) =
      (if c = '\\' then ['\\', '\\'] else if c = '"' then ['\\', '"'] else [c]) ++
        replaceChar '"' ['\\', '"'] (replaceChar '\\' ['\\', '\\'] s) := by
  by_cases h1 : c = '\\'
  · subst h1
    simp [replaceChar]
  · by_cases h2 : c = '"'
    · subst h2
      simp [replaceChar]
    · simp [replaceChar, h1, h2]

theorem jsonStringRest_escaped (s : List Char) (rest : List Char) :
    (∀ c ∈ s, ¬ c.toNat < 32) →
    jsonStringRest
        (replaceChar '"' ['\\', '"'] (replaceChar '\\' ['\\', '\\'] s) ++
          '"' :: rest) = some rest := by
  induction s with
  | nil =>
    intro _
    simp [replaceChar, jsonStringRest]
  | cons c cs ih =>
    intro h
    rw [replaceBoth_cons]
    have hcs := ih (fun x hx => h x (List.mem_cons_of_mem _ hx))
    by_cases h1 : c = '\\'
    · subst h1
      simpa [jsonStringRest, isEscapeChar] using hcs
    · by_cases h2 : c = '"'
      · subst h2
        simpa [jsonStringRest, isEscapeChar] using hcs
      · have hc : ¬ c.toNat < 32 := h c (List.mem_cons_self _ _)
        simpa [jsonStringRest, h1, h2, hc] using hcs

theorem dropExact_append (p rest : List Char) :
    dropExact p (p ++ rest) = some rest := by
  induction p with
  | nil => rfl
  | cons c cs ih => simpa [dropExact] using ih

theorem validUnauthorizedBody_of_no_control (msg : String)
    (h : ∀ c ∈ msg.data, ¬ c.toNat < 32) :
    validUnauthorizedBody (writeUnauthorizedResponse msg).body = true := by
  have hbody : (writeUnauthorizedResponse msg).body.data =
      ("\x7b\"error\":\"unauthorized\",\"message\":\"").data ++
        (replaceChar '"' ['\\', '"'] (replaceChar '\\' ['\\', '\\'] msg.data) ++
          '"' :: ['\x7d']) := by
    simp [writeUnauthorizedResponse, escapeJSON, String.data_append]
  rw [validUnauthorizedBody, hbody, dropExact_append]
  simp [jsonStringRest_escaped msg.data ['\x7d'] h]

/-- C8 (amended to reason strings free of control characters): every body the
gate writes on rejection is exactly
`\x7b"error":"unauthorized","message":"<m>"\x7d` with backslashes and quotes
escaped in `<m>`, at status 401; the three reason strings the gate uses are
control-free, so every body it actually writes is valid JSON — and for every
control-free reason string the template yields valid JSON (for reason strings
with control characters it does not, see the counterexample); on a request
presenting neither a Bearer-prefixed `Authorization` header nor a non-empty
`X-API-Key`, the rejection carries the generic message
"authentication required". -/
theorem unauthorized_response_shape (m : Middleware) (now : Int)
    (ctx : ReqContext) (r : Request) :
    (∀ msg, writeUnauthorizedResponse msg =
      { status := 401, contentType := "application/json",
        body := "\x7b\"error\":\"unauthorized\",\"message\":\""
          ++ escapeJSON msg ++ "\"\x7d" }) ∧
    (∀ msg : String, (∀ c ∈ msg.data, ¬ c.toNat < 32) →
      validUnauthorizedBody (writeUnauthorizedResponse msg).body = true) ∧
    (∀ resp, m.Authenticate now ctx r = .responded resp →
      resp.status = 401 ∧
      ∃ msg, resp = writeUnauthorizedResponse msg ∧
        (∀ c ∈ msg.data, ¬ c.toNat < 32) ∧
        validUnauthorizedBody resp.body = true) ∧
    ((∀ t, r.authHeader ≠ .bearer t) → r.apiKey = "" →
      ∀ resp, m.Authenticate now ctx r = .responded resp →
        resp = writeUnauthorizedResponse "authentication required") := by
  have hshape : ∀ resp, m.Authenticate now ctx r = .responded resp →
      resp = writeUnauthorizedResponse "invalid or expired token" ∨
      resp = writeUnauthorizedResponse "invalid credentials" ∨
      resp = writeUnauthorizedResponse "authentication required" := by
    intro resp hresp
    rw [Middleware.Authenticate] at hresp
    by_cases hpath : r.path = "/health"
    · rw [if_pos hpath] at hresp
      exact absurd hresp (by simp)
    · rw [if_neg hpath] at hresp
      cases hh : r.authHeader with
      | bearer t =>
        rw [hh] at hresp
        cases hjwt : m.authenticateJWT now ctx t with
        | some ctx2 => simp [hjwt] at hresp
        | none =>
          simp only [hjwt] at hresp
          cases hresp
          exact Or.inl rfl
      | noHeader =>
        rw [hh] at hresp
        by_cases hk : r.apiKey ≠ ""
        · rw [if_pos hk] at hresp
          cases hapi : m.authenticateAPIKey ctx r.apiKey with
          | some ctx2 => simp [hapi] at hresp
          | none =>
            simp only [hapi] at hresp
            cases hresp
            exact Or.inr (Or.inl rfl)
        · rw [if_neg hk] at hresp
          cases hresp
          exact Or.inr (Or.inr rfl)
      | other hs =>
        rw [hh] at hresp
        by_cases hk : r.apiKey ≠ ""
        · rw [if_pos hk] at hresp
          cases hapi : m.authenticateAPIKey ctx r.apiKey with
          | some ctx2 => simp [hapi] at hresp
          | none =>
            simp only [hapi] at hresp
            cases hresp
            exact Or.inr (Or.inl rfl)
        · rw [if_neg hk] at hresp
          cases hresp
          exact Or.inr (Or.inr rfl)
  refine ⟨fun msg => rfl, fun msg h => validUnauthorizedBody_of_no_control msg h,
    ?_, ?_⟩
  · intro resp hresp
    rcases hshape resp hresp with hmsg | hmsg | hmsg <;> subst hmsg
    · exact ⟨rfl, "invalid or expired token", rfl, by decide,
        validUnauthorizedBody_of_no_control _ (by decide)⟩
    · exact ⟨rfl, "invalid credentials", rfl, by decide,
        validUnauthorizedBody_of_no_control _ (by decide)⟩
    · exact ⟨rfl, "authentication required", rfl, by decide,
        validUnauthorizedBody_of_no_control _ (by decide)⟩
  · intro hbearer hkey resp hresp
    rw [Middleware.Authenticate] at hresp
    by_cases hpath : r.path = "/health"
    · rw [if_pos hpath] at hresp
      exact absurd hresp (by simp)
    · rw [if_neg hpath] at hresp
      cases hh : r.authHeader with
      | bearer t => exact absurd hh (hbearer t)
      | noHeader =>
        rw [hh] at hresp
        rw [if_neg (by simpa using hkey)] at hresp
        cases hresp
        rfl
      | other hs =>
        rw [hh] at hresp
        rw [if_neg (by simpa using hkey)] at hresp
        cases hresp
        rfl

/-- Counterexample to C8 as stated: `escapeJSON` escapes only backslash and
double quote, so for a reason string holding a control character (here a raw
newline) the written body embeds that character unescaped inside the JSON
string literal and the body is not valid JSON — the claim's "valid JSON for
every reason string" fails. -/
theorem unauthorized_body_newline_counterexample :
    validUnauthorizedBody (writeUnauthorizedResponse "\n").body = false := by
  decide

/-- Witness for the amended C8: a credential-less request to a non-health
path is rejected with the generic "authentication required" message at status
401, and the written body is valid JSON. -/
theorem unauthorized_response_shape_witness :
    (writeUnauthorizedResponse "authentication required").status = 401 ∧
    validUnauthorizedBody
      (writeUnauthorizedResponse "authentication required").body = true ∧
    Middleware.Authenticate ⟨⟨["k1"]⟩, none⟩ 0 ⟨none, none, none, none, none⟩
        ⟨"/api/v1/services", .noHeader, ""⟩
      = .responded (writeUnauthorizedResponse "authentication required") := by
  have h := unauthorized_response_shape ⟨⟨["k1"]⟩, none⟩ 0
    ⟨none, none, none, none, none⟩ ⟨"/api/v1/services", .noHeader, ""⟩
  have h2 := h.2.2.1 (writeUnauthorizedResponse "authentication required")
    (by decide)
  obtain ⟨hstatus, msg, hmsg, hctrl, hvalid⟩ := h2
  exact ⟨hstatus, hvalid, by decide⟩
